import Mathlib

/-!
Verification of the BioQ quiz-session engine (src/pages/Quiz.tsx).

The definitions below are a shallow embedding of the TypeScript source.
JavaScript 32-bit unsigned arithmetic (`>>> 0`, `Math.imul`) is modelled as
natural-number arithmetic modulo 4294967296 = 2^32; this is bit-exact because
xor and multiplication modulo 2^32 act identically on the underlying 32-bit
patterns whether they are read as signed or unsigned.  `rnd()` returns
`a / 0x100000000`, a dyadic rational that float64 represents exactly, and
`Math.floor(rnd() * (i + 1))` is exact for every list length below 2^21,
so the swap index is embedded as `a * (i + 1) / 2^32` in truncated
natural division.  Strings are modelled by their UTF-16 code-unit lists;
for the ASCII seed strings used by the program this is `String.data.map
Char.toNat`.
-/

namespace BioQ

/-- UTF-16 code units of a string (exact for the ASCII strings the program uses). -/
def codeUnits (s : String) : List Nat :=
  s.data.map Char.toNat

/-- Embedding of `hash` (Quiz.tsx lines 35-42): FNV-1a style fold,
`h = 2166136261; h ^= c; h = Math.imul(h, 16777619)` per character, `>>> 0` at the end. -/
def hash (units : List Nat) : Nat :=
  units.foldl (fun h c => (h ^^^ c) * 16777619 % 4294967296) 2166136261

/-- Embedding of the state advance inside `prng` (Quiz.tsx lines 43-49):
`a = (a * 1664525 + 1013904223) >>> 0`.  The multiplication is exact in
float64 (the product is below 2^53), so `>>> 0` is reduction mod 2^32. -/
def prngNext (a : Nat) : Nat :=
  (a * 1664525 + 1013904223) % 4294967296

/-- Swap of two positions of a list; identity when either index is out of
range (in `seededShuffle` both indices are always in range). -/
def listSwap (l : List α) (i j : Nat) : List α :=
  match l[i]?, l[j]? with
  | some x, some y => (l.set i y).set j x
  | _, _ => l

/-- One iteration of the Fisher-Yates loop of `seededShuffle` (Quiz.tsx lines
53-56) at loop index `i`: advance the PRNG, compute
`j = Math.floor(rnd() * (i + 1))` and swap positions `i` and `j`.  The pair
carries the working copy of the list and the current PRNG state. -/
def fyStep (p : List α × Nat) (i : Nat) : List α × Nat :=
  let a := prngNext p.2
  (listSwap p.1 i (a * (i + 1) / 4294967296), a)

/-- Embedding of `seededShuffle` (Quiz.tsx lines 50-58): run `fyStep` for
`i = length - 1, length - 2, ..., 1`, starting from the PRNG state
`hash(seedStr)`. -/
def seededShuffle (l : List α) (seedStr : String) : List α :=
  (((List.range' 1 (l.length - 1)).reverse).foldl fyStep
    (l, hash (codeUnits seedStr))).1

theorem set_set_of_getElem?_perm :
    ∀ (l : List α) (k : Nat) (b c : α), l[k]? = some b →
      List.Perm (b :: l.set k c) (c :: l) := by
  intro l
  induction l with
  | nil => intro k b c h; simp at h
  | cons d t ih =>
    intro k b c h
    cases k with
    | zero =>
      simp only [List.getElem?_cons_zero, Option.some.injEq] at h
      subst h
      simpa using List.Perm.swap c d t
    | succ m =>
      simp only [List.getElem?_cons_succ] at h
      have h1 : List.Perm (b :: d :: t.set m c) (d :: b :: t.set m c) :=
        List.Perm.swap d b _
      have h2 : List.Perm (d :: b :: t.set m c) (d :: c :: t) :=
        List.Perm.cons d (ih m b c h)
      have h3 : List.Perm (d :: c :: t) (c :: d :: t) := List.Perm.swap c d t
      simpa using (h1.trans h2).trans h3

theorem set_set_swap_perm :
    ∀ (l : List α) (i j : Nat) (x y : α), l[i]? = some x → l[j]? = some y →
      List.Perm ((l.set i y).set j x) l := by
  intro l
  induction l with
  | nil => intro i j x y hi _; simp at hi
  | cons a t ih =>
    intro i j x y hi hj
    cases i with
    | zero =>
      simp only [List.getElem?_cons_zero, Option.some.injEq] at hi
      subst hi
      cases j with
      | zero =>
        simp only [List.getElem?_cons_zero, Option.some.injEq] at hj
        subst hj
        simp
      | succ m =>
        simp only [List.getElem?_cons_succ] at hj
        simpa using set_set_of_getElem?_perm t m y a hj
    | succ n =>
      simp only [List.getElem?_cons_succ] at hi
      cases j with
      | zero =>
        simp only [List.getElem?_cons_zero, Option.some.injEq] at hj
        subst hj
        simpa using set_set_of_getElem?_perm t n x a hi
      | succ m =>
        simp only [List.getElem?_cons_succ] at hj
        simpa using List.Perm.cons a (ih n m x y hi hj)

theorem listSwap_perm (l : List α) (i j : Nat) : List.Perm (listSwap l i j) l := by
  have hdef : listSwap l i j =
      match l[i]?, l[j]? with
      | some x, some y => (l.set i y).set j x
      | _, _ => l := rfl
  cases hi : l[i]? with
  | none =>
    rw [hdef, hi]
  | some x =>
    cases hj : l[j]? with
    | none =>
      rw [hdef, hi, hj]
    | some y =>
      rw [hdef, hi, hj]
      exact set_set_swap_perm l i j x y hi hj

theorem foldl_fyStep_perm :
    ∀ (idxs : List Nat) (p : List α × Nat), List.Perm (idxs.foldl fyStep p).1 p.1 := by
  intro idxs
  induction idxs with
  | nil => intro p; exact List.Perm.refl p.1
  | cons i rest ih =>
    intro p
    exact (ih (fyStep p i)).trans (listSwap_perm p.1 i _)

theorem seededShuffle_perm (l : List α) (seedStr : String) :
    List.Perm (seededShuffle l seedStr) l :=
  foldl_fyStep_perm _ _

/-- C1: `seededShuffle` is a pure function of its two arguments (in this
embedding it is a total function, so it cannot mutate its input and two calls
with the same `(L, s)` pair are definitionally equal), and its result is a
permutation of the input list. -/
theorem seededShuffle_perm_and_deterministic (l : List α) (seedStr : String) :
    List.Perm (seededShuffle l seedStr) l ∧
      seededShuffle l seedStr = seededShuffle l seedStr :=
  ⟨seededShuffle_perm l seedStr, rfl⟩

/-- The FNV-1a fold exactly as the specification describes it: accumulator
initialized to 2166136261; for each character, xor the code unit in, then
multiply by 16777619 modulo 2^32.  Written by recursion so that agreement
with the `foldl`-based source embedding `hash` is a real statement. -/
def hashSpecFNV (acc : Nat) : List Nat → Nat
  | [] => acc
  | c :: cs => hashSpecFNV ((acc ^^^ c) * 16777619 % 2 ^ 32) cs

theorem hash_eq_hashSpecFNV_aux :
    ∀ (u : List Nat) (acc : Nat),
      u.foldl (fun h c => (h ^^^ c) * 16777619 % 4294967296) acc = hashSpecFNV acc u := by
  intro u
  induction u with
  | nil => intro acc; rfl
  | cons c cs ih =>
    intro acc
    show cs.foldl _ ((acc ^^^ c) * 16777619 % 4294967296) = _
    rw [ih]
    norm_num [hashSpecFNV]

theorem hash_lt_aux :
    ∀ (u : List Nat) (acc : Nat), acc < 4294967296 →
      u.foldl (fun h c => (h ^^^ c) * 16777619 % 4294967296) acc < 4294967296 := by
  intro u
  induction u with
  | nil => intro acc h; exact h
  | cons c cs ih =>
    intro acc _
    exact ih _ (Nat.mod_lt _ (by norm_num))

/-- C7: `hash` computes the FNV-1a fold over UTF-16 code units exactly as the
specification states (init 2166136261, xor then multiply by 16777619 mod 2^32,
result a 32-bit value), and the LCG `prng` advances its state by
`a * 1664525 + 1013904223 mod 2^32`, returning `state / 2^32`, a rational
in `[0, 1)`. -/
theorem hash_prng_spec :
    (∀ u : List Nat, hash u = hashSpecFNV 2166136261 u ∧ hash u < 2 ^ 32) ∧
      (∀ a : Nat,
        prngNext a = (a * 1664525 + 1013904223) % 2 ^ 32 ∧
          (0 : ℚ) ≤ (prngNext a : ℚ) / 2 ^ 32 ∧ (prngNext a : ℚ) / 2 ^ 32 < 1) := by
  refine ⟨fun u => ⟨hash_eq_hashSpecFNV_aux u 2166136261, ?_⟩, fun a => ⟨by norm_num [prngNext], ?_, ?_⟩⟩
  · have h := hash_lt_aux u 2166136261 (by norm_num)
    calc hash u < 4294967296 := h
      _ = 2 ^ 32 := by norm_num
  · positivity
  · rw [div_lt_one (by positivity)]
    have h : prngNext a < 4294967296 := Nat.mod_lt _ (by norm_num)
    calc (prngNext a : ℚ) < (4294967296 : ℚ) := by exact_mod_cast h
      _ = 2 ^ 32 := by norm_num

/-! ### Data model (Quiz.tsx lines 8-30) -/

inductive Difficulty
  | easy
  | medium
  | hard
deriving DecidableEq

/-- The `Question` record (Quiz.tsx lines 8-16). -/
structure Question where
  id : String
  category : String
  difficulty : Difficulty
  prompt : String
  options : List String
  correctIndex : Nat
  explanation : Option String
deriving DecidableEq

/-- The per-question status (Quiz.tsx line 18). -/
inductive Status
  | unanswered
  | correct
  | wrong
  | penalized
deriving DecidableEq

/-- The persisted `WeeklySession` record (Quiz.tsx lines 20-30). -/
structure WeeklySession where
  date : String
  weekId : String
  qIds : List String
  qIndex : Nat
  statuses : List Status
  timesMs : List Nat
  score : Nat
  seed : String
  tPerQ : Nat
deriving DecidableEq

/-! ### Weekly question selection (Quiz.tsx lines 194-214) -/

/-- `Math.round(t * 0.8)` for a natural `t`.  The float64 product `t * 0.8`
differs from the rational `4t/5` by less than `t * 2^-52`, and `4t/5` has
fractional part in `{0, 1/5, 2/5, 3/5, 4/5}`, never `1/2`, so for every
realistic `t` (anything below 2^50) rounding the float equals rounding the
exact rational; `round(4t/5) = (8t + 5) / 10` in truncated division. -/
def jsRound45 (t : Nat) : Nat :=
  (8 * t + 5) / 10

/-- `hardAll` (Quiz.tsx line 197). -/
def hardAll (bank : List Question) : List Question :=
  bank.filter fun q => decide (q.difficulty = Difficulty.hard)

/-- `medAll` (Quiz.tsx line 198). -/
def medAll (bank : List Question) : List Question :=
  bank.filter fun q => decide (q.difficulty = Difficulty.medium)

/-- `others` (Quiz.tsx line 199). -/
def others (bank : List Question) : List Question :=
  bank.filter fun q => decide (q.difficulty ≠ Difficulty.hard ∧ q.difficulty ≠ Difficulty.medium)

/-- `hardPick` (Quiz.tsx line 202): shuffled hard pool, first `needHard`. -/
def hardPick (bank : List Question) (dateKey : String) (target : Nat) : List Question :=
  (seededShuffle (hardAll bank) ("WEEKLY-HARD-" ++ dateKey)).take (jsRound45 target)

/-- `medPick` (Quiz.tsx line 203): shuffled medium pool, first `needMed`. -/
def medPick (bank : List Question) (dateKey : String) (target : Nat) : List Question :=
  (seededShuffle (medAll bank) ("WEEKLY-MED-" ++ dateKey)).take (target - jsRound45 target)

/-- The backfill pool (Quiz.tsx lines 206-211): freshly shuffled hard, medium
and other groups, skipping ids already picked. -/
def backfillPool (bank : List Question) (dateKey : String) (picks : List Question) :
    List Question :=
  (seededShuffle (hardAll bank) ("WEEKLY-HARD-FILL-" ++ dateKey) ++
      seededShuffle (medAll bank) ("WEEKLY-MED-FILL-" ++ dateKey) ++
      seededShuffle (others bank) ("WEEKLY-REST-" ++ dateKey)).filter
    fun q => decide (q.id ∉ picks.map fun q' => q'.id)

/-- `target` (Quiz.tsx line 196): `Math.min(n, bank.length)`. -/
def weeklyTarget (bank : List Question) (n : Nat) : Nat :=
  min n bank.length

/-- `picks` before backfill (Quiz.tsx line 204): `[...hardPick, ...medPick]`. -/
def weeklyBasePicks (bank : List Question) (n : Nat) (dateKey : String) : List Question :=
  hardPick bank dateKey (weeklyTarget bank n) ++ medPick bank dateKey (weeklyTarget bank n)

/-- `picks` after the backfill branch (Quiz.tsx lines 205-213). -/
def weeklyFilledPicks (bank : List Question) (n : Nat) (dateKey : String) : List Question :=
  if (weeklyBasePicks bank n dateKey).length < weeklyTarget bank n then
    weeklyBasePicks bank n dateKey ++
      (backfillPool bank dateKey (weeklyBasePicks bank n dateKey)).take
        (weeklyTarget bank n - (weeklyBasePicks bank n dateKey).length)
  else weeklyBasePicks bank n dateKey

/-- The weekly question pick (Quiz.tsx lines 194-214): take `round(target*0.8)`
hard and the rest medium from date-seeded shuffles, backfill if short, then
shuffle the combined list with the `WEEKLY-FINAL-` seed. -/
def weeklyPick (bank : List Question) (n : Nat) (dateKey : String) : List Question :=
  seededShuffle (weeklyFilledPicks bank n dateKey) ("WEEKLY-FINAL-" ++ dateKey)

theorem hardPick_all_hard (bank : List Question) (dateKey : String) (target : Nat) :
    ∀ q ∈ hardPick bank dateKey target, q.difficulty = Difficulty.hard := by
  intro q hq
  have hq2 : q ∈ seededShuffle (hardAll bank) ("WEEKLY-HARD-" ++ dateKey) :=
    List.take_subset _ _ hq
  have hq3 : q ∈ hardAll bank := (seededShuffle_perm _ _).mem_iff.mp hq2
  have := List.mem_filter.mp hq3
  simpa using this.2

theorem medPick_all_medium (bank : List Question) (dateKey : String) (target : Nat) :
    ∀ q ∈ medPick bank dateKey target, q.difficulty = Difficulty.medium := by
  intro q hq
  have hq2 : q ∈ seededShuffle (medAll bank) ("WEEKLY-MED-" ++ dateKey) :=
    List.take_subset _ _ hq
  have hq3 : q ∈ medAll bank := (seededShuffle_perm _ _).mem_iff.mp hq2
  have := List.mem_filter.mp hq3
  simpa using this.2

theorem countP_hard_add_countP_medium_le_length (l : List Question) :
    l.countP (fun q => decide (q.difficulty = Difficulty.hard)) +
      l.countP (fun q => decide (q.difficulty = Difficulty.medium)) ≤ l.length := by
  induction l with
  | nil => simp
  | cons a t ih =>
    rw [List.countP_cons, List.countP_cons, List.length_cons]
    cases h : a.difficulty <;> simp [h] <;> omega

theorem bank_length_of_counts (bank : List Question)
    (hh : 12 ≤ (hardAll bank).length) (hm : 3 ≤ (medAll bank).length) :
    15 ≤ bank.length := by
  have h1 : (hardAll bank).length =
      bank.countP fun q => decide (q.difficulty = Difficulty.hard) :=
    (List.countP_eq_length_filter _ _).symm
  have h2 : (medAll bank).length =
      bank.countP fun q => decide (q.difficulty = Difficulty.medium) :=
    (List.countP_eq_length_filter _ _).symm
  have h3 := countP_hard_add_countP_medium_le_length bank
  omega

/-- C2: with a bank holding at least 12 hard and at least 3 medium questions
and target `n = 15`, the weekly pick is exactly the 12 date-seeded hard picks
plus the 3 date-seeded medium picks (no backfill), reordered by the final
shuffle with seed `WEEKLY-FINAL-<date>`; in particular it has length 15 with
exactly 12 hard and 3 medium questions. -/
theorem weeklyPick_12_hard_3_medium (bank : List Question) (dateKey : String)
    (hh : 12 ≤ (hardAll bank).length) (hm : 3 ≤ (medAll bank).length) :
    ((weeklyPick bank 15 dateKey).filter fun q =>
        decide (q.difficulty = Difficulty.hard)).length = 12 ∧
      ((weeklyPick bank 15 dateKey).filter fun q =>
        decide (q.difficulty = Difficulty.medium)).length = 3 ∧
      (weeklyPick bank 15 dateKey).length = 15 ∧
      weeklyPick bank 15 dateKey =
        seededShuffle (hardPick bank dateKey 15 ++ medPick bank dateKey 15)
          ("WEEKLY-FINAL-" ++ dateKey) := by
  have hlen : 15 ≤ bank.length := bank_length_of_counts bank hh hm
  have htarget : min 15 bank.length = 15 := Nat.min_eq_left hlen
  have hround : jsRound45 15 = 12 := by norm_num [jsRound45]
  have hHlen : (hardPick bank dateKey 15).length = 12 := by
    have hs : (seededShuffle (hardAll bank) ("WEEKLY-HARD-" ++ dateKey)).length =
        (hardAll bank).length := (seededShuffle_perm _ _).length_eq
    simp only [hardPick, List.length_take, hround, hs]
    omega
  have hMlen : (medPick bank dateKey 15).length = 3 := by
    have hs : (seededShuffle (medAll bank) ("WEEKLY-MED-" ++ dateKey)).length =
        (medAll bank).length := (seededShuffle_perm _ _).length_eq
    simp only [medPick, List.length_take, hround, hs]
    omega
  have hpicklen : (hardPick bank dateKey 15 ++ medPick bank dateKey 15).length = 15 := by
    simp [hHlen, hMlen]
  have htarget2 : weeklyTarget bank 15 = 15 := htarget
  have hbase : weeklyBasePicks bank 15 dateKey =
      hardPick bank dateKey 15 ++ medPick bank dateKey 15 := by
    unfold weeklyBasePicks
    rw [htarget2]
  have heq : weeklyPick bank 15 dateKey =
      seededShuffle (hardPick bank dateKey 15 ++ medPick bank dateKey 15)
        ("WEEKLY-FINAL-" ++ dateKey) := by
    unfold weeklyPick weeklyFilledPicks
    rw [hbase, htarget2, hpicklen, if_neg (by omega)]
  have hperm :
      List.Perm (weeklyPick bank 15 dateKey)
        (hardPick bank dateKey 15 ++ medPick bank dateKey 15) := by
    rw [heq]
    exact seededShuffle_perm _ _
  have hcH : ((hardPick bank dateKey 15 ++ medPick bank dateKey 15).countP fun q =>
      decide (q.difficulty = Difficulty.hard)) = 12 := by
    rw [List.countP_append]
    have c1 : ((hardPick bank dateKey 15).countP fun q =>
        decide (q.difficulty = Difficulty.hard)) = 12 := by
      rw [← hHlen]
      refine List.countP_eq_length.mpr fun q hq => ?_
      simpa using hardPick_all_hard bank dateKey 15 q hq
    have c2 : ((medPick bank dateKey 15).countP fun q =>
        decide (q.difficulty = Difficulty.hard)) = 0 := by
      refine List.countP_eq_zero.mpr fun q hq => ?_
      have := medPick_all_medium bank dateKey 15 q hq
      simp [this]
    omega
  have hcM : ((hardPick bank dateKey 15 ++ medPick bank dateKey 15).countP fun q =>
      decide (q.difficulty = Difficulty.medium)) = 3 := by
    rw [List.countP_append]
    have c1 : ((hardPick bank dateKey 15).countP fun q =>
        decide (q.difficulty = Difficulty.medium)) = 0 := by
      refine List.countP_eq_zero.mpr fun q hq => ?_
      have := hardPick_all_hard bank dateKey 15 q hq
      simp [this]
    have c2 : ((medPick bank dateKey 15).countP fun q =>
        decide (q.difficulty = Difficulty.medium)) = 3 := by
      rw [← hMlen]
      refine List.countP_eq_length.mpr fun q hq => ?_
      simpa using medPick_all_medium bank dateKey 15 q hq
    omega
  refine ⟨?_, ?_, ?_, heq⟩
  · rw [← List.countP_eq_length_filter, hperm.countP_eq, hcH]
  · rw [← List.countP_eq_length_filter, hperm.countP_eq, hcM]
  · rw [hperm.length_eq, hpicklen]

/-- A concrete 15-question bank (12 hard, 3 medium) for the C2 witness. -/
def c2Bank : List Question :=
  ((List.range 12).map fun i =>
    { id := toString i, category := "bio", difficulty := Difficulty.hard,
      prompt := "p", options := ["a", "b"], correctIndex := 0, explanation := none }) ++
    (List.range 3).map fun i =>
      { id := toString (i + 12), category := "bio", difficulty := Difficulty.medium,
        prompt := "p", options := ["a", "b"], correctIndex := 0, explanation := none }

theorem weeklyPick_12_hard_3_medium_witness :
    12 ≤ (hardAll c2Bank).length ∧ 3 ≤ (medAll c2Bank).length ∧
      ((weeklyPick c2Bank 15 "2025-03-10").filter fun q =>
        decide (q.difficulty = Difficulty.hard)).length = 12 :=
  ⟨by decide, by decide,
    (weeklyPick_12_hard_3_medium c2Bank "2025-03-10" (by decide) (by decide)).1⟩

/-! ### Session state machine (Quiz.tsx lines 224-545)

The component state relevant to the claims, with `stored` modelling the
parsed value under today's `weekly:session:<date>` localStorage key and
`today`/`thisWeek` the environment values `localDateKey()` / `weekIdFor()`.
The UI-only pieces (`lockedFor`, `nowTs`, report popover, sounds) are not
modelled; `expired` is `expiredRef.current`.  Storage writes are modelled as
succeeding (a quota failure is a silent no-op in the source and merely leaves
`stored` unchanged). -/

structure QuizState where
  isWeekly : Bool
  total : Nat
  questions : List Question
  qIndex : Nat
  running : Bool
  locked : Bool
  selected : Option Nat
  score : Nat
  finished : Bool
  timesMs : List Nat
  statuses : List Status
  startedAt : Nat
  expired : Bool
  stored : Option WeeklySession
  today : String
  thisWeek : String
deriving DecidableEq

/-- The `opts` argument of `saveWeeklySnapshot` (Quiz.tsx lines 452-457);
the two `Record<number, ...>` maps become update lists. -/
structure SnapOpts where
  newIndex : Option Nat
  timesUpd : List (Nat × Nat)
  statusesUpd : List (Nat × Status)
  scoreDelta : Nat
deriving DecidableEq

/-- Apply `for (const [k, v] of Object.entries(...)) arr[k] = v` updates.
All updates produced by the engine are in range, where JS assignment and
`List.set` agree. -/
def applyNatUpdates (l : List Nat) (us : List (Nat × Nat)) : List Nat :=
  us.foldl (fun acc kv => acc.set kv.1 kv.2) l

def applyStatusUpdates (l : List Status) (us : List (Nat × Status)) : List Status :=
  us.foldl (fun acc kv => acc.set kv.1 kv.2) l

/-- The default record built from the latest refs in `saveWeeklySnapshot`
(Quiz.tsx lines 460-470).  The refs hold the state from before the current
event's in-memory updates, which is why the events below pass their pre-event
state to `saveWeeklySnapshot`. -/
def sessionFromRefs (s : QuizState) : WeeklySession :=
  { date := s.today, weekId := s.thisWeek,
    qIds := s.questions.map fun q => q.id,
    qIndex := s.qIndex, statuses := s.statuses, timesMs := s.timesMs,
    score := s.score, seed := "WEEKLY-" ++ s.today, tPerQ := s.total }

/-- `saveWeeklySnapshot` (Quiz.tsx lines 452-485), returning the new stored
value: read the stored record (or rebuild it from refs), merge the deltas,
write it back.  `readSessionSafe` on an intact store is `s.stored` itself. -/
def saveWeeklySnapshot (s : QuizState) (opts : SnapOpts) : Option WeeklySession :=
  if s.isWeekly then
    let base := s.stored.getD (sessionFromRefs s)
    let r1 :=
      match opts.newIndex with
      | none => base
      | some i => { base with qIndex := i }
    let r2 := { r1 with score := r1.score + opts.scoreDelta }
    let r3 := { r2 with timesMs := applyNatUpdates r2.timesMs opts.timesUpd }
    let r4 := { r3 with statuses := applyStatusUpdates r3.statuses opts.statusesUpd }
    some r4
  else s.stored

/-- `choose(idx)` (Quiz.tsx lines 387-423) at wall-clock `now`: a no-op while
`locked` (or with no current question); otherwise lock, record elapsed
`min(budget, now - startedAt)`, set `correct`/`wrong`, bump the score on a
correct answer, and persist the delta. -/
def choose (idx : Nat) (now : Nat) (s : QuizState) : QuizState :=
  match s.questions[s.qIndex]? with
  | none => s
  | some q =>
    if s.locked then s
    else
      { s with
        selected := some idx
        locked := true
        running := false
        timesMs := s.timesMs.set s.qIndex (min (s.total * 1000) (now - s.startedAt))
        statuses := s.statuses.set s.qIndex
          (if idx = q.correctIndex then Status.correct else Status.wrong)
        score := if idx = q.correctIndex then s.score + 1 else s.score
        stored := saveWeeklySnapshot s
          { newIndex := none
            timesUpd := [(s.qIndex, min (s.total * 1000) (now - s.startedAt))]
            statusesUpd :=
              [(s.qIndex, if idx = q.correctIndex then Status.correct else Status.wrong)]
            scoreDelta := if idx = q.correctIndex then 1 else 0 } }

/-- One sample of the per-question timer loop (Quiz.tsx lines 351-384) at
wall-clock `now`.  The effect only runs while `running && !locked`;
`expired` is the one-shot `expiredRef` guard.  On expiry the in-memory status
is forced to `wrong` only if still `unanswered`, but the snapshot delta
unconditionally writes `wrong` at the current index. -/
def timerTick (now : Nat) (s : QuizState) : QuizState :=
  if s.running = false ∨ s.locked = true then s
  else if s.expired = true then s
  else if now < s.startedAt + s.total * 1000 then s
  else
    { s with
      expired := true
      running := false
      locked := true
      timesMs := s.timesMs.set s.qIndex (s.total * 1000)
      statuses :=
        if s.statuses[s.qIndex]? = some Status.unanswered then
          s.statuses.set s.qIndex Status.wrong
        else s.statuses
      stored := saveWeeklySnapshot s
        { newIndex := none
          timesUpd := [(s.qIndex, s.total * 1000)]
          statusesUpd := [(s.qIndex, Status.wrong)]
          scoreDelta := 0 } }

/-- `next()` (Quiz.tsx lines 425-437) plus the per-question reset effect on
the index change (lines 340-348, which also re-arms the timer and clears
`expiredRef`), at wall-clock `now`.  On the last question the session
finishes and the finish effect (lines 548-575) removes the stored record. -/
def next (now : Nat) (s : QuizState) : QuizState :=
  if s.qIndex < s.questions.length - 1 then
    { s with
      qIndex := s.qIndex + 1
      stored := saveWeeklySnapshot s
        { newIndex := some (s.qIndex + 1), timesUpd := [], statusesUpd := [], scoreDelta := 0 }
      running := true
      selected := none
      locked := false
      startedAt := now
      expired := false }
  else
    { s with
      finished := true
      running := false
      stored := if s.isWeekly then none else s.stored }

/-- The default record constructed inside `finalizeOnLeave` when nothing is
stored (Quiz.tsx lines 498-508); unlike `saveWeeklySnapshot`'s default it
fills `statuses`/`timesMs` with fresh `unanswered`/`0` arrays. -/
def leaveDefaultSession (s : QuizState) : WeeklySession :=
  { date := s.today, weekId := s.thisWeek,
    qIds := s.questions.map fun q => q.id,
    qIndex := s.qIndex,
    statuses := List.replicate s.questions.length Status.unanswered,
    timesMs := List.replicate s.questions.length 0,
    score := s.score, seed := "WEEKLY-" ++ s.today, tPerQ := s.total }

/-- `finalizeOnLeave` (Quiz.tsx lines 488-530): not weekly or already
finished, return without touching storage; mid-question (running, unlocked,
index in range), write the penalty record; otherwise write a plain
snapshot. -/
def finalizeOnLeave (s : QuizState) : QuizState :=
  if s.isWeekly = false then s
  else if s.finished = true then s
  else if s.running = true ∧ s.locked = false ∧ s.qIndex < s.questions.length then
    let sess := s.stored.getD (leaveDefaultSession s)
    { s with
      stored :=
        some
          { sess with
            qIndex := min (s.qIndex + 1)
              ((if s.questions.length = 0 then 1 else s.questions.length) - 1)
            statuses := sess.statuses.set s.qIndex Status.penalized
            timesMs := sess.timesMs.set s.qIndex (s.total * 1000) } }
  else
    { s with
      stored :=
        saveWeeklySnapshot s
          { newIndex := none, timesUpd := [], statusesUpd := [], scoreDelta := 0 } }

/-- The record written for a fresh weekly run (Quiz.tsx lines 322-334). -/
def freshSessionRecord (s : QuizState) (questions : List Question) : WeeklySession :=
  { date := s.today, weekId := s.thisWeek, qIds := questions.map fun q => q.id,
    qIndex := 0, statuses := List.replicate questions.length Status.unanswered,
    timesMs := List.replicate questions.length 0, score := 0,
    seed := "WEEKLY-" ++ s.today, tPerQ := s.total }

/-- The FRESH RUN branch of the initialize effect (Quiz.tsx lines 307-335). -/
def freshRun (s : QuizState) (questions : List Question) (now : Nat) : QuizState :=
  { s with
    questions := questions
    qIndex := 0
    running := true
    selected := none
    locked := false
    score := 0
    finished := false
    timesMs := List.replicate questions.length 0
    statuses := List.replicate questions.length Status.unanswered
    startedAt := now
    expired := false
    stored := if s.isWeekly then some (freshSessionRecord s questions) else s.stored }

/-- The RESUME branch of the initialize effect (Quiz.tsx lines 290-305). -/
def resumeRun (s : QuizState) (questions : List Question) (r : WeeklySession) (now : Nat) :
    QuizState :=
  { s with
    questions := questions
    qIndex := min r.qIndex (questions.length - 1)
    timesMs := r.timesMs.take questions.length
    statuses := r.statuses.take questions.length
    score := r.score
    running := true
    selected := none
    locked := false
    finished := false
    startedAt := now
    expired := false }

/-- The initialize/resume effect (Quiz.tsx lines 287-337): no-op on an empty
question list; resume only when weekly with a loaded record whose `qIds`
length equals the computed question list's length; otherwise start fresh. -/
def initRun (s : QuizState) (questions : List Question) (resume : Option WeeklySession)
    (now : Nat) : QuizState :=
  if questions.length = 0 then s
  else
    match resume with
    | some r =>
      if s.isWeekly = true ∧ r.qIds.length = questions.length then
        resumeRun s questions r now
      else freshRun s questions now
    | none => freshRun s questions now

/-- The practice-mode selection (Quiz.tsx lines 217-221): filter by category
(when non-empty) and by difficulty, shuffle with the fresh random seed, take
the first `min(n, filteredCount)`. -/
def normalPick (bank : List Question) (n : Nat) (category : Option String)
    (difficulty : Difficulty) (normalSeed : String) : List Question :=
  let f1 :=
    match category with
    | none => bank
    | some c => bank.filter fun q => decide (q.category = c)
  let f2 := f1.filter fun q => decide (q.difficulty = difficulty)
  (seededShuffle f2 normalSeed).take (min n f2.length)

/-- The weekly arm of the `questions` memo (Quiz.tsx lines 186-215): with a
loaded `resume` whose `qIds` is non-empty, rebuild the list from the stored
ids (`byId` lookup then `filter(Boolean)`, so ids no longer in the bank are
dropped); otherwise run the weekly pick. -/
def weeklyQuestionsFor (bank : List Question) (resume : Option WeeklySession) (n : Nat)
    (dateKey : String) : List Question :=
  match resume with
  | some r =>
    if r.qIds.length ≠ 0 then
      r.qIds.filterMap fun i => bank.find? fun q => decide (q.id = i)
    else weeklyPick bank n dateKey
  | none => weeklyPick bank n dateKey

/-- The `questions` memo (Quiz.tsx lines 183-222). -/
def questionsFor (bank : List Question) (isWeekly : Bool) (resume : Option WeeklySession)
    (n : Nat) (dateKey : String) (category : Option String) (difficulty : Difficulty)
    (normalSeed : String) : List Question :=
  if isWeekly then weeklyQuestionsFor bank resume n dateKey
  else normalPick bank n category difficulty normalSeed

/-! ### Concrete fixtures used by the witnesses and counterexamples -/

def sampleQ (i ci : Nat) : Question :=
  { id := toString i, category := "bio", difficulty := Difficulty.hard, prompt := "p",
    options := ["a", "b"], correctIndex := ci, explanation := none }

def blankState : QuizState :=
  { isWeekly := true, total := 12, questions := [], qIndex := 0, running := true,
    locked := false, selected := none, score := 0, finished := false, timesMs := [],
    statuses := [], startedAt := 0, expired := false, stored := none,
    today := "2025-03-10", thisWeek := "2025-W11" }

/-- A freshly started two-question weekly session. -/
def startedTwo : QuizState :=
  initRun blankState [sampleQ 0 0, sampleQ 1 1] none 1000

/-- C5: while a question is running, unlocked and not yet expired, a timer
sample before the deadline changes nothing; the first sample at or after
`startedAt + total * 1000` locks the question, stops the timer, sets the
elapsed time to the full budget, forces the status to `wrong` only if it is
still `unanswered`, and sets the one-shot guard — after which every further
timer sample is a no-op, so the expiry fires exactly once per question. -/
theorem timerTick_timeout_once (s : QuizState) (now : Nat)
    (hr : s.running = true) (hl : s.locked = false) (he : s.expired = false) :
    (now < s.startedAt + s.total * 1000 → timerTick now s = s) ∧
      (s.startedAt + s.total * 1000 ≤ now →
        (timerTick now s).locked = true ∧ (timerTick now s).running = false ∧
          (timerTick now s).expired = true ∧
          (timerTick now s).timesMs = s.timesMs.set s.qIndex (s.total * 1000) ∧
          (s.statuses[s.qIndex]? = some Status.unanswered →
            (timerTick now s).statuses = s.statuses.set s.qIndex Status.wrong) ∧
          (s.statuses[s.qIndex]? ≠ some Status.unanswered →
            (timerTick now s).statuses = s.statuses) ∧
          ∀ now2 : Nat, timerTick now2 (timerTick now s) = timerTick now s) := by
  constructor
  · intro hlt
    unfold timerTick
    rw [if_neg (by simp [hr, hl]), if_neg (by simp [he]), if_pos hlt]
  · intro hge
    have hfire : timerTick now s =
        { s with
          expired := true
          running := false
          locked := true
          timesMs := s.timesMs.set s.qIndex (s.total * 1000)
          statuses :=
            if s.statuses[s.qIndex]? = some Status.unanswered then
              s.statuses.set s.qIndex Status.wrong
            else s.statuses
          stored := saveWeeklySnapshot s
            { newIndex := none
              timesUpd := [(s.qIndex, s.total * 1000)]
              statusesUpd := [(s.qIndex, Status.wrong)]
              scoreDelta := 0 } } := by
      unfold timerTick
      rw [if_neg (by simp [hr, hl]), if_neg (by simp [he]), if_neg (by omega)]
    rw [hfire]
    refine ⟨rfl, rfl, rfl, rfl, fun h => by simp [h], fun h => by simp [h], fun now2 => ?_⟩
    unfold timerTick
    rw [if_pos (Or.inl rfl)]

theorem timerTick_timeout_once_witness :
    startedTwo.running = true ∧ startedTwo.locked = false ∧ startedTwo.expired = false ∧
      startedTwo.startedAt + startedTwo.total * 1000 ≤ 13000 ∧
      (timerTick 13000 startedTwo).locked = true :=
  ⟨by decide, by decide, by decide, by decide,
    ((timerTick_timeout_once startedTwo 13000 (by decide) (by decide) (by decide)).2
      (by decide)).1⟩

/-- A finished weekly session whose stored record was already cleared by the
finish effect (Quiz.tsx line 570). -/
def c4FinishedState : QuizState :=
  { blankState with
    questions := [sampleQ 0 0]
    statuses := [Status.correct]
    timesMs := [2000]
    score := 1
    running := false
    locked := true
    finished := true
    stored := none }

/-- C4 counterexample: for a finished weekly session, `finalizeOnLeave`
returns without writing anything — storage stays empty — whereas the claim
asserts that a plain persistence snapshot is written (which, as the last
conjunct shows, would have produced a record). -/
theorem finalizeOnLeave_finished_counterexample :
    c4FinishedState.isWeekly = true ∧ c4FinishedState.finished = true ∧
      finalizeOnLeave c4FinishedState = c4FinishedState ∧
      (finalizeOnLeave c4FinishedState).stored = none ∧
      saveWeeklySnapshot c4FinishedState
          { newIndex := none, timesUpd := [], statusesUpd := [], scoreDelta := 0 } ≠
        none := by
  refine ⟨rfl, rfl, by decide, by decide, by decide⟩

/-- C4 amended: for a weekly, unfinished session, leaving mid-question
(running, unlocked, index in range) writes a penalty record — status at the
current index `penalized`, elapsed the full budget, stored index advanced to
`min(i+1, length-1)` — while the in-memory arrays are untouched; leaving with
the current question locked (or not running, or index out of range) writes
only a plain snapshot, which leaves an existing stored record unchanged.  (A
finished session — see the counterexample — writes nothing at all.) -/
theorem finalizeOnLeave_spec (s : QuizState) (hw : s.isWeekly = true)
    (hf : s.finished = false) :
    ((s.running = true ∧ s.locked = false ∧ s.qIndex < s.questions.length) →
      (finalizeOnLeave s).stored =
          some
            { s.stored.getD (leaveDefaultSession s) with
              qIndex := min (s.qIndex + 1) (s.questions.length - 1)
              statuses :=
                (s.stored.getD (leaveDefaultSession s)).statuses.set s.qIndex Status.penalized
              timesMs :=
                (s.stored.getD (leaveDefaultSession s)).timesMs.set s.qIndex
                  (s.total * 1000) } ∧
        (finalizeOnLeave s).statuses = s.statuses ∧
        (finalizeOnLeave s).timesMs = s.timesMs) ∧
      (¬(s.running = true ∧ s.locked = false ∧ s.qIndex < s.questions.length) →
        (finalizeOnLeave s).stored =
            saveWeeklySnapshot s
              { newIndex := none, timesUpd := [], statusesUpd := [], scoreDelta := 0 } ∧
          (∀ r, s.stored = some r → (finalizeOnLeave s).stored = some r) ∧
          (finalizeOnLeave s).statuses = s.statuses ∧
          (finalizeOnLeave s).timesMs = s.timesMs) := by
  constructor
  · intro hmid
    have hne0 : ¬s.questions.length = 0 := by omega
    unfold finalizeOnLeave
    rw [if_neg (by simp [hw]), if_neg (by simp [hf]), if_pos hmid, if_neg hne0]
    exact ⟨rfl, rfl, rfl⟩
  · intro hnot
    unfold finalizeOnLeave
    rw [if_neg (by simp [hw]), if_neg (by simp [hf]), if_neg hnot]
    refine ⟨rfl, ?_, rfl, rfl⟩
    intro r hr
    show saveWeeklySnapshot s
        { newIndex := none, timesUpd := [], statusesUpd := [], scoreDelta := 0 } = some r
    simp [saveWeeklySnapshot, hw, hr, applyNatUpdates, applyStatusUpdates]

theorem finalizeOnLeave_spec_witness :
    startedTwo.isWeekly = true ∧ startedTwo.finished = false ∧
      startedTwo.running = true ∧ startedTwo.locked = false ∧
      startedTwo.qIndex < startedTwo.questions.length ∧
      (finalizeOnLeave startedTwo).stored =
        some
          { startedTwo.stored.getD (leaveDefaultSession startedTwo) with
            qIndex := min (startedTwo.qIndex + 1) (startedTwo.questions.length - 1)
            statuses :=
              (startedTwo.stored.getD (leaveDefaultSession startedTwo)).statuses.set
                startedTwo.qIndex Status.penalized
            timesMs :=
              (startedTwo.stored.getD (leaveDefaultSession startedTwo)).timesMs.set
                startedTwo.qIndex (startedTwo.total * 1000) } :=
  ⟨by decide, by decide, by decide, by decide, by decide,
    (((finalizeOnLeave_spec startedTwo (by decide) (by decide)).1
      ⟨by decide, by decide, by decide⟩)).1⟩

theorem rebuilt_length_of_all_found (bank : List Question) (ids : List String)
    (h : ∀ i ∈ ids, ∃ q ∈ bank, q.id = i) :
    (ids.filterMap fun i => bank.find? fun q => decide (q.id = i)).length = ids.length := by
  induction ids with
  | nil => rfl
  | cons i rest ih =>
    rw [List.filterMap_cons]
    have hex := h i (List.mem_cons_self i rest)
    obtain ⟨q, hq, hid⟩ := hex
    have hsome : (bank.find? fun q => decide (q.id = i)).isSome := by
      rw [List.find?_isSome]
      exact ⟨q, hq, by simp [hid]⟩
    cases hfind : bank.find? fun q => decide (q.id = i) with
    | none => rw [hfind] at hsome; simp at hsome
    | some q2 =>
      rw [List.length_cons, List.length_cons]
      rw [ih fun j hj => h j (List.mem_cons_of_mem _ hj)]

/-- The C6 counterexample fixtures: a two-question bank, and a stored record
from an earlier visit with a single question id (all present in the bank). -/
def c6Bank : List Question :=
  [sampleQ 0 0, sampleQ 1 1]

def c6Resume : WeeklySession :=
  { date := "2025-03-10", weekId := "2025-W11", qIds := ["0"], qIndex := 0,
    statuses := [Status.correct], timesMs := [5000], score := 1,
    seed := "WEEKLY-2025-03-10", tPerQ := 12 }

def c6Questions : List Question :=
  questionsFor c6Bank true (some c6Resume) 2 "2025-03-10" none Difficulty.easy "X"

def c6State : QuizState :=
  initRun blankState c6Questions (some c6Resume) 1000

/-- C6 counterexample: the stored record holds 1 question id while the
freshly computed weekly selection for the same bank and day has length 2 — a
length mismatch against a fresh selection — yet the engine resumes (prior
status and score restored) instead of starting fresh, because the code
compares against the list rebuilt from the stored ids, not against a fresh
selection. -/
theorem initRun_mismatch_counterexample :
    c6Resume.qIds.length = 1 ∧
      (weeklyPick c6Bank 2 "2025-03-10").length = 2 ∧
      c6State.statuses = [Status.correct] ∧ c6State.score = 1 ∧ c6State.qIndex = 0 ∧
      c6State.statuses ≠ List.replicate c6Questions.length Status.unanswered := by
  decide

/-- C6 amended: with a non-empty computed question list: no loaded record
(absent, expired, or unparseable) starts a fresh session — index 0, all
statuses `unanswered`, all elapsed 0, score 0, and (weekly) a new stored
record; a loaded record resumes — with prior statuses, elapsed and score
restored and index clamped to the last question — precisely when its
`questionIds` length equals the computed list's length, which in weekly mode
is the list rebuilt from the stored ids themselves (so resumption happens
exactly when every stored id is still found in the bank, as the last
conjunct shows), not a length comparison against a freshly computed
selection. -/
theorem initRun_start_resume_spec (s : QuizState) (qs : List Question) (now : Nat)
    (hne : qs ≠ []) :
    (initRun s qs none now = freshRun s qs now ∧
        (freshRun s qs now).qIndex = 0 ∧
        (freshRun s qs now).statuses = List.replicate qs.length Status.unanswered ∧
        (freshRun s qs now).timesMs = List.replicate qs.length 0 ∧
        (freshRun s qs now).score = 0 ∧
        (s.isWeekly = true → (freshRun s qs now).stored = some (freshSessionRecord s qs))) ∧
      (∀ r : WeeklySession, s.isWeekly = true → r.qIds.length = qs.length →
        initRun s qs (some r) now = resumeRun s qs r now ∧
          (resumeRun s qs r now).qIndex = min r.qIndex (qs.length - 1) ∧
          (resumeRun s qs r now).statuses = r.statuses.take qs.length ∧
          (resumeRun s qs r now).timesMs = r.timesMs.take qs.length ∧
          (resumeRun s qs r now).score = r.score) ∧
      (∀ r : WeeklySession, ¬(s.isWeekly = true ∧ r.qIds.length = qs.length) →
        initRun s qs (some r) now = freshRun s qs now) ∧
      (∀ (bank : List Question) (r : WeeklySession) (n : Nat) (dateKey : String)
          (category : Option String) (difficulty : Difficulty) (normalSeed : String),
        r.qIds ≠ [] → (∀ i ∈ r.qIds, ∃ q ∈ bank, q.id = i) →
          (questionsFor bank true (some r) n dateKey category difficulty normalSeed).length =
            r.qIds.length) := by
  have hne0 : ¬qs.length = 0 := by simp [hne]
  refine ⟨⟨?_, rfl, rfl, rfl, rfl, fun hw => by simp [freshRun, hw]⟩, ?_, ?_, ?_⟩
  · unfold initRun
    rw [if_neg hne0]
  · intro r hw hlen
    refine ⟨?_, rfl, rfl, rfl, rfl⟩
    unfold initRun
    rw [if_neg hne0]
    exact if_pos ⟨hw, hlen⟩
  · intro r hcond
    unfold initRun
    rw [if_neg hne0]
    exact if_neg hcond
  · intro bank r n dateKey category difficulty normalSeed hids hall
    have hq : questionsFor bank true (some r) n dateKey category difficulty normalSeed =
        weeklyQuestionsFor bank (some r) n dateKey := by
      unfold questionsFor
      rw [if_pos rfl]
    have hr : weeklyQuestionsFor bank (some r) n dateKey =
        if r.qIds.length ≠ 0 then
          r.qIds.filterMap fun i => bank.find? fun q => decide (q.id = i)
        else weeklyPick bank n dateKey := rfl
    rw [hq, hr, if_pos (by simp [hids])]
    exact rebuilt_length_of_all_found bank r.qIds hall

theorem initRun_start_resume_spec_witness :
    ([sampleQ 0 0, sampleQ 1 1] : List Question) ≠ [] ∧
      initRun blankState [sampleQ 0 0, sampleQ 1 1] none 1000 =
        freshRun blankState [sampleQ 0 0, sampleQ 1 1] 1000 :=
  ⟨by decide,
    (initRun_start_resume_spec blankState [sampleQ 0 0, sampleQ 1 1] 1000 (by decide)).1.1⟩

/-! ### Reachability and the lock invariant (C3) -/

/-- States reachable from a fresh (non-resumed) start of the initialize
effect by answering, timer samples, advancing and leave events. -/
inductive Reach : QuizState → Prop
  | init (s0 : QuizState) (qs : List Question) (now : Nat) (h : qs ≠ []) :
      Reach (initRun s0 qs none now)
  | chooseStep (s : QuizState) (idx now : Nat) : Reach s → Reach (choose idx now s)
  | tickStep (s : QuizState) (now : Nat) : Reach s → Reach (timerTick now s)
  | nextStep (s : QuizState) (now : Nat) : Reach s → Reach (next now s)
  | leaveStep (s : QuizState) : Reach s → Reach (finalizeOnLeave s)

/-- Any in-memory status that is no longer `unanswered` belongs to a question
strictly before the current index, or to the current question while it is
locked. -/
def LockInv (s : QuizState) : Prop :=
  ∀ i st, s.statuses[i]? = some st → st ≠ Status.unanswered →
    i < s.qIndex ∨ (i = s.qIndex ∧ s.locked = true)

theorem lockInv_freshRun (s : QuizState) (qs : List Question) (now : Nat) :
    LockInv (freshRun s qs now) := by
  intro i st hst hne
  exfalso
  apply hne
  dsimp only [freshRun] at hst
  rw [List.getElem?_replicate] at hst
  by_cases hi : i < qs.length
  · rw [if_pos hi] at hst
    exact (Option.some.injEq _ _ ▸ hst).symm
  · rw [if_neg hi] at hst
    exact absurd hst (by simp)

theorem lockInv_choose (idx now : Nat) (s : QuizState) (h : LockInv s) :
    LockInv (choose idx now s) := by
  unfold choose
  split
  · exact h
  · split
    · exact h
    · intro i st hst hne
      dsimp only at hst ⊢
      by_cases hi : i = s.qIndex
      · exact Or.inr ⟨hi, rfl⟩
      · have hqi : s.qIndex ≠ i := fun hh => hi hh.symm
        rw [List.getElem?_set_ne hqi] at hst
        rcases h i st hst hne with hlt | ⟨heq, _⟩
        · exact Or.inl hlt
        · exact absurd heq hi

theorem lockInv_tick (now : Nat) (s : QuizState) (h : LockInv s) :
    LockInv (timerTick now s) := by
  unfold timerTick
  by_cases h1 : s.running = false ∨ s.locked = true
  · rw [if_pos h1]; exact h
  · rw [if_neg h1]
    by_cases h2 : s.expired = true
    · rw [if_pos h2]; exact h
    · rw [if_neg h2]
      by_cases h3 : now < s.startedAt + s.total * 1000
      · rw [if_pos h3]; exact h
      · rw [if_neg h3]
        intro i st hst hne
        dsimp only at hst ⊢
        by_cases hi : i = s.qIndex
        · exact Or.inr ⟨hi, rfl⟩
        · have hqi : s.qIndex ≠ i := fun hh => hi hh.symm
          have hst2 : s.statuses[i]? = some st := by
            by_cases hu : s.statuses[s.qIndex]? = some Status.unanswered
            · rw [if_pos hu, List.getElem?_set_ne hqi] at hst
              exact hst
            · rw [if_neg hu] at hst
              exact hst
          rcases h i st hst2 hne with hlt | ⟨heq, _⟩
          · exact Or.inl hlt
          · exact absurd heq hi

theorem lockInv_next (now : Nat) (s : QuizState) (h : LockInv s) :
    LockInv (next now s) := by
  unfold next
  by_cases h1 : s.qIndex < s.questions.length - 1
  · rw [if_pos h1]
    intro i st hst hne
    dsimp only at hst ⊢
    rcases h i st hst hne with hlt | ⟨heq, _⟩
    · exact Or.inl (by omega)
    · exact Or.inl (by omega)
  · rw [if_neg h1]
    intro i st hst hne
    exact h i st hst hne

theorem lockInv_leave (s : QuizState) (h : LockInv s) : LockInv (finalizeOnLeave s) := by
  unfold finalizeOnLeave
  split
  · exact h
  · split
    · exact h
    · split
      · intro i st hst hne
        exact h i st hst hne
      · intro i st hst hne
        exact h i st hst hne

theorem reach_lockInv (s : QuizState) (h : Reach s) : LockInv s := by
  induction h with
  | init s0 qs now hne =>
    have hne0 : ¬qs.length = 0 := by simp [hne]
    have heq : initRun s0 qs none now = freshRun s0 qs now := by
      unfold initRun
      rw [if_neg hne0]
    rw [heq]
    exact lockInv_freshRun s0 qs now
  | chooseStep s idx now _ ih => exact lockInv_choose idx now s ih
  | tickStep s now _ ih => exact lockInv_tick now s ih
  | nextStep s now _ ih => exact lockInv_next now s ih
  | leaveStep s _ ih => exact lockInv_leave s ih

theorem applyNatUpdates_getElem?_ne (us : List (Nat × Nat)) (l : List Nat) (i : Nat)
    (h : ∀ kv ∈ us, kv.1 ≠ i) : (applyNatUpdates l us)[i]? = l[i]? := by
  induction us generalizing l with
  | nil => rfl
  | cons kv rest ih =>
    have hstep : applyNatUpdates l (kv :: rest) = applyNatUpdates (l.set kv.1 kv.2) rest := rfl
    rw [hstep, ih _ fun kv2 hm => h kv2 (List.mem_cons_of_mem _ hm)]
    exact List.getElem?_set_ne (h kv (List.mem_cons_self _ _))

theorem applyStatusUpdates_getElem?_ne (us : List (Nat × Status)) (l : List Status) (i : Nat)
    (h : ∀ kv ∈ us, kv.1 ≠ i) : (applyStatusUpdates l us)[i]? = l[i]? := by
  induction us generalizing l with
  | nil => rfl
  | cons kv rest ih =>
    have hstep : applyStatusUpdates l (kv :: rest) = applyStatusUpdates (l.set kv.1 kv.2) rest :=
      rfl
    rw [hstep, ih _ fun kv2 hm => h kv2 (List.mem_cons_of_mem _ hm)]
    exact List.getElem?_set_ne (h kv (List.mem_cons_self _ _))

theorem saveWeeklySnapshot_preserves_getElem (s : QuizState) (opts : SnapOpts)
    (r : WeeklySession) (hr : s.stored = some r) (i : Nat)
    (ht : ∀ kv ∈ opts.timesUpd, kv.1 ≠ i) (hs2 : ∀ kv ∈ opts.statusesUpd, kv.1 ≠ i) :
    ∃ r2, saveWeeklySnapshot s opts = some r2 ∧
      r2.statuses[i]? = r.statuses[i]? ∧ r2.timesMs[i]? = r.timesMs[i]? := by
  unfold saveWeeklySnapshot
  by_cases hw : s.isWeekly = true
  · rw [if_pos hw, hr]
    cases opts with
    | mk newIndex timesUpd statusesUpd scoreDelta =>
      cases newIndex with
      | none =>
        refine ⟨_, rfl, ?_, ?_⟩
        · exact applyStatusUpdates_getElem?_ne _ _ _ hs2
        · exact applyNatUpdates_getElem?_ne _ _ _ ht
      | some n2 =>
        refine ⟨_, rfl, ?_, ?_⟩
        · exact applyStatusUpdates_getElem?_ne _ _ _ hs2
        · exact applyNatUpdates_getElem?_ne _ _ _ ht
  · rw [if_neg hw]
    exact ⟨r, hr, rfl, rfl⟩

theorem choose_noop (idx now : Nat) (s : QuizState)
    (h : s.questions[s.qIndex]? = none ∨ s.locked = true) :
    choose idx now s = s := by
  unfold choose
  split
  · rfl
  · rename_i q hq
    have hl : s.locked = true := by
      rcases h with h1 | h2
      · rw [hq] at h1
        exact absurd h1 (by simp)
      · exact h2
    rw [if_pos hl]

theorem choose_fire (idx now : Nat) (s : QuizState) (q : Question)
    (hq : s.questions[s.qIndex]? = some q) (hl : s.locked = false) :
    choose idx now s =
      { s with
        selected := some idx
        locked := true
        running := false
        timesMs := s.timesMs.set s.qIndex (min (s.total * 1000) (now - s.startedAt))
        statuses := s.statuses.set s.qIndex
          (if idx = q.correctIndex then Status.correct else Status.wrong)
        score := if idx = q.correctIndex then s.score + 1 else s.score
        stored := saveWeeklySnapshot s
          { newIndex := none
            timesUpd := [(s.qIndex, min (s.total * 1000) (now - s.startedAt))]
            statusesUpd :=
              [(s.qIndex, if idx = q.correctIndex then Status.correct else Status.wrong)]
            scoreDelta := if idx = q.correctIndex then 1 else 0 } } := by
  unfold choose
  split
  · rename_i hnone
    rw [hnone] at hq
    exact absurd hq (by simp)
  · rename_i q2 hq2
    have hqq : q2 = q := Option.some.inj (hq2.symm.trans hq)
    subst hqq
    rw [if_neg (by simp [hl])]

/-- C3 amended: within a session run under the machine's own events (fresh
start, `choose`, timer samples, `next`, leave) — that is, with no resume in
between — once the in-memory status of question `i` is not `unanswered`, a
subsequent `choose` or timer-expiry sample changes neither the in-memory
status or elapsed time at `i` nor the stored record's status or elapsed time
at `i` (when a record is present).  A resume breaks this — see the
counterexample — because it clears the lock while keeping non-`unanswered`
statuses at the current index, letting `choose` overwrite them. -/
theorem lock_invariant (s : QuizState) (hs : Reach s) (i : Nat) (st : Status)
    (hst : s.statuses[i]? = some st) (hne : st ≠ Status.unanswered) :
    (∀ idx now,
        (choose idx now s).statuses[i]? = some st ∧
          (choose idx now s).timesMs[i]? = s.timesMs[i]? ∧
          ∀ r, s.stored = some r → ∃ r2, (choose idx now s).stored = some r2 ∧
            r2.statuses[i]? = r.statuses[i]? ∧ r2.timesMs[i]? = r.timesMs[i]?) ∧
      ∀ now,
        (timerTick now s).statuses[i]? = some st ∧
          (timerTick now s).timesMs[i]? = s.timesMs[i]? ∧
          ∀ r, s.stored = some r → ∃ r2, (timerTick now s).stored = some r2 ∧
            r2.statuses[i]? = r.statuses[i]? ∧ r2.timesMs[i]? = r.timesMs[i]? := by
  have hdisj := reach_lockInv s hs i st hst hne
  constructor
  · intro idx now
    cases hq : s.questions[s.qIndex]? with
    | none =>
      rw [choose_noop idx now s (Or.inl hq)]
      exact ⟨hst, rfl, fun r hr => ⟨r, hr, rfl, rfl⟩⟩
    | some q =>
      by_cases hl : s.locked = true
      · rw [choose_noop idx now s (Or.inr hl)]
        exact ⟨hst, rfl, fun r hr => ⟨r, hr, rfl, rfl⟩⟩
      · have hlf : s.locked = false := by simpa using hl
        have hlt : i < s.qIndex := by
          rcases hdisj with h1 | ⟨_, h2⟩
          · exact h1
          · simp [h2] at hlf
        have hqi : s.qIndex ≠ i := by omega
        rw [choose_fire idx now s q hq hlf]
        dsimp only
        refine ⟨?_, List.getElem?_set_ne hqi, ?_⟩
        · rw [List.getElem?_set_ne hqi]
          exact hst
        · intro r hr
          refine saveWeeklySnapshot_preserves_getElem s _ r hr i ?_ ?_
          · intro kv hm
            simp only [List.mem_singleton] at hm
            subst hm
            exact hqi
          · intro kv hm
            simp only [List.mem_singleton] at hm
            subst hm
            exact hqi
  · intro now
    by_cases h1 : s.running = false ∨ s.locked = true
    · have heq : timerTick now s = s := by
        unfold timerTick
        rw [if_pos h1]
      rw [heq]
      exact ⟨hst, rfl, fun r hr => ⟨r, hr, rfl, rfl⟩⟩
    · by_cases h2 : s.expired = true
      · have heq : timerTick now s = s := by
          unfold timerTick
          rw [if_neg h1, if_pos h2]
        rw [heq]
        exact ⟨hst, rfl, fun r hr => ⟨r, hr, rfl, rfl⟩⟩
      · by_cases h3 : now < s.startedAt + s.total * 1000
        · have heq : timerTick now s = s := by
            unfold timerTick
            rw [if_neg h1, if_neg h2, if_pos h3]
          rw [heq]
          exact ⟨hst, rfl, fun r hr => ⟨r, hr, rfl, rfl⟩⟩
        · have hlf : s.locked = false := by
            have := (not_or.mp h1).2
            simpa using this
          have hlt : i < s.qIndex := by
            rcases hdisj with hd1 | ⟨_, hd2⟩
            · exact hd1
            · simp [hd2] at hlf
          have hqi : s.qIndex ≠ i := by omega
          have hfire : timerTick now s =
              { s with
                expired := true
                running := false
                locked := true
                timesMs := s.timesMs.set s.qIndex (s.total * 1000)
                statuses :=
                  if s.statuses[s.qIndex]? = some Status.unanswered then
                    s.statuses.set s.qIndex Status.wrong
                  else s.statuses
                stored := saveWeeklySnapshot s
                  { newIndex := none
                    timesUpd := [(s.qIndex, s.total * 1000)]
                    statusesUpd := [(s.qIndex, Status.wrong)]
                    scoreDelta := 0 } } := by
            unfold timerTick
            rw [if_neg h1, if_neg h2, if_neg h3]
          rw [hfire]
          dsimp only
          refine ⟨?_, List.getElem?_set_ne hqi, ?_⟩
          · by_cases hu : s.statuses[s.qIndex]? = some Status.unanswered
            · rw [if_pos hu, List.getElem?_set_ne hqi]
              exact hst
            · rw [if_neg hu]
              exact hst
          · intro r hr
            refine saveWeeklySnapshot_preserves_getElem s _ r hr i ?_ ?_
            · intro kv hm
              simp only [List.mem_singleton] at hm
              subst hm
              exact hqi
            · intro kv hm
              simp only [List.mem_singleton] at hm
              subst hm
              exact hqi

/-- The C3 counterexample trace: answer the only question of a weekly
session, leave (plain snapshot), reload and resume from the stored record,
then answer again with a different option. -/
def c3Bank : List Question :=
  [sampleQ 0 0]

def c3Answered : QuizState :=
  choose 0 3000 (initRun blankState c3Bank none 1000)

def c3Left : QuizState :=
  finalizeOnLeave c3Answered

def c3Rebuilt : List Question :=
  questionsFor c3Bank true c3Left.stored 1 "2025-03-10" none Difficulty.easy "X"

def c3Resumed : QuizState :=
  initRun c3Left c3Rebuilt c3Left.stored 4000

/-- C3 counterexample: after the resume, question 0's status is `correct` —
not `unanswered` — in memory and in the stored record, yet a subsequent
`choose` of the other option changes it to `wrong` in both places (the resume
cleared the lock, so the answered question can be re-answered). -/
theorem lock_invariant_counterexample :
    c3Resumed.statuses[0]? = some Status.correct ∧
      (c3Resumed.stored.map fun r => r.statuses[0]?) = some (some Status.correct) ∧
      c3Resumed.locked = false ∧
      (choose 1 6000 c3Resumed).statuses[0]? = some Status.wrong ∧
      ((choose 1 6000 c3Resumed).stored.map fun r => r.statuses[0]?) =
        some (some Status.wrong) := by
  decide

theorem lock_invariant_witness :
    (choose 0 3000 startedTwo).statuses[0]? = some Status.correct ∧
      Status.correct ≠ Status.unanswered ∧
      (choose 1 5000 (choose 0 3000 startedTwo)).statuses[0]? = some Status.correct :=
  ⟨by decide, by decide,
    ((lock_invariant (choose 0 3000 startedTwo)
        (Reach.chooseStep _ 0 3000
          (Reach.init blankState [sampleQ 0 0, sampleQ 1 1] 1000 (by decide)))
        0 Status.correct (by decide) (by decide)).1 1 5000).1⟩

/-! ### Raw stored values and `readSessionSafe` (C8)

A value under today's session key is either unparseable text (`JSON.parse`
throws), a well-formed session record, or parseable JSON of some other shape
(schema-mismatched).  `LooseSession` models such a mismatched object through
the fields the quiz reads from it, each possibly absent. -/

structure LooseSession where
  date : Option String
  weekId : Option String
  qIds : Option (List String)
  qIndex : Option Nat
  statuses : Option (List Status)
  timesMs : Option (List Nat)
  score : Option Nat
  seed : Option String
  tPerQ : Option Nat
deriving DecidableEq

inductive RawStored
  | garbage
  | wellFormed (w : WeeklySession)
  | mismatched (p : LooseSession)
deriving DecidableEq

/-- `readSessionSafe` (Quiz.tsx lines 444-450): absent → null; `JSON.parse`
throws → caught, null; any parseable value — including one that does not
match the `WeeklySession` schema — is cast and returned as-is. -/
def readSessionSafe : Option RawStored → Option (WeeklySession ⊕ LooseSession)
  | none => none
  | some RawStored.garbage => none
  | some (RawStored.wellFormed w) => some (Sum.inl w)
  | some (RawStored.mismatched p) => some (Sum.inr p)

/-- The resume-load effect (Quiz.tsx lines 167-180): absent → null; parse
failure → caught, null; a parsed value whose `date`/`weekId` fields do not
equal today's keys → removed, null; otherwise kept (for a mismatched object,
an absent `date` compares unequal to today, so it is discarded here — but an
object with correct `date` and `weekId` fields passes through unvalidated). -/
def loadResume (raw : Option RawStored) (today thisWeek : String) :
    Option (WeeklySession ⊕ LooseSession) :=
  match raw with
  | none => none
  | some RawStored.garbage => none
  | some (RawStored.wellFormed w) =>
    if w.date = today ∧ w.weekId = thisWeek then some (Sum.inl w) else none
  | some (RawStored.mismatched p) =>
    if p.date = some today ∧ p.weekId = some thisWeek then some (Sum.inr p) else none

/-- A parseable stored value of an entirely different shape (all expected
fields absent). -/
def emptyLoose : LooseSession :=
  { date := none, weekId := none, qIds := none, qIndex := none, statuses := none,
    timesMs := none, score := none, seed := none, tPerQ := none }

/-- C8 counterexample: a stored value that is parseable JSON but
schema-mismatched is NOT treated as absent by the session store's load:
`readSessionSafe` returns it as a record (unparseable garbage, by contrast,
is returned as absent). -/
theorem readSessionSafe_schema_mismatch_counterexample :
    readSessionSafe (some (RawStored.mismatched emptyLoose)) =
        some (Sum.inr emptyLoose) ∧
      readSessionSafe (some (RawStored.mismatched emptyLoose)) ≠ none ∧
      readSessionSafe (some RawStored.garbage) = none := by
  exact ⟨rfl, by decide, rfl⟩

/-- C8 amended: an unparseable stored value (or an absent one) is treated as
absent by both `readSessionSafe` and the resume-load path, which never throw
(they are total functions returning `none`); a parseable record whose `date`
does not match today is likewise discarded by the resume path; and with no
loaded record the initialize effect starts a fresh session (index 0, all
statuses `unanswered`).  Schema validation beyond the `date`/`weekId`
comparison does not happen: `readSessionSafe` returns any parseable value
as-is (see the counterexample). -/
theorem corrupt_storage_treated_absent (today thisWeek : String) :
    readSessionSafe none = none ∧
      readSessionSafe (some RawStored.garbage) = none ∧
      loadResume none today thisWeek = none ∧
      loadResume (some RawStored.garbage) today thisWeek = none ∧
      (∀ w : WeeklySession, w.date ≠ today →
        loadResume (some (RawStored.wellFormed w)) today thisWeek = none) ∧
      ∀ (s : QuizState) (qs : List Question) (now : Nat), qs ≠ [] →
        (initRun s qs none now).qIndex = 0 ∧
          (initRun s qs none now).statuses = List.replicate qs.length Status.unanswered := by
  refine ⟨rfl, rfl, rfl, rfl, ?_, ?_⟩
  · intro w hw
    have heq : loadResume (some (RawStored.wellFormed w)) today thisWeek =
        if w.date = today ∧ w.weekId = thisWeek then some (Sum.inl w) else none := rfl
    rw [heq, if_neg]
    intro hcon
    exact hw hcon.1
  · intro s qs now hne
    have hne0 : ¬qs.length = 0 := by simp [hne]
    have heq : initRun s qs none now = freshRun s qs now := by
      unfold initRun
      rw [if_neg hne0]
    rw [heq]
    exact ⟨rfl, rfl⟩

theorem corrupt_storage_treated_absent_witness :
    ({ c6Resume with date := "2024-01-01" } : WeeklySession).date ≠ "2025-03-10" ∧
      loadResume (some (RawStored.wellFormed { c6Resume with date := "2024-01-01" }))
          "2025-03-10" "2025-W11" = none :=
  ⟨by decide,
    (corrupt_storage_treated_absent "2025-03-10" "2025-W11").2.2.2.2.1
      { c6Resume with date := "2024-01-01" } (by decide)⟩

/-! ### Saving the weekly attempt (C9) -/

/-- The outcome of the `weekly_attempts` insert as seen by the client:
success, or an error carrying an optional error code and a message. -/
inductive SaveResponse
  | ok
  | errRes (code : Option String) (message : String)
deriving DecidableEq

/-- The saving-related component state (Quiz.tsx lines 240-242). -/
structure SaveState where
  saving : Bool
  saved : Bool
  saveError : Option String
deriving DecidableEq

/-- Whether `pat` occurs as a contiguous subsequence of `l`. -/
def containsSeq (pat : List Char) : List Char → Bool
  | [] => pat.isEmpty
  | c :: rest => pat.isPrefixOf (c :: rest) || containsSeq pat rest

/-- The uniqueness-violation test (Quiz.tsx line 596):
`error.code === "23505" || /one_per_day/i.test(error.message)`. -/
def isUniqueViolation (code : Option String) (message : String) : Bool :=
  decide (code = some "23505") ||
    containsSeq ("one_per_day".toLower.data) (message.toLower.data)

/-- `saveWeeklyAttempt` (Quiz.tsx lines 579-604) reduced to its effect on the
saving state: guarded against non-weekly mode and re-entry (`saving`) and
re-saving (`saved`); success or a uniqueness violation marks the attempt
saved with no error; any other error surfaces its message. -/
def saveWeeklyAttempt (isWeekly : Bool) (st : SaveState) (resp : SaveResponse) : SaveState :=
  if isWeekly = false ∨ st.saving = true ∨ st.saved = true then st
  else
    match resp with
    | SaveResponse.ok => { saving := false, saved := true, saveError := none }
    | SaveResponse.errRes code msg =>
      if isUniqueViolation code msg = true then
        { saving := false, saved := true, saveError := none }
      else { saving := false, saved := st.saved, saveError := some msg }

/-- C9: with the save not already in flight or done, a duplicate-submission
response (code 23505, or a message naming the one_per_day constraint) is
treated exactly like success — `saved` becomes true and no error is surfaced
— while any other error response leaves the attempt unsaved with its message
surfaced (the finish screen then renders the retry action); a plain success
also marks the attempt saved. -/
theorem duplicate_submission_treated_saved (st : SaveState)
    (h1 : st.saving = false) (h2 : st.saved = false) :
    (∀ code msg, isUniqueViolation code msg = true →
        saveWeeklyAttempt true st (SaveResponse.errRes code msg) =
          { saving := false, saved := true, saveError := none }) ∧
      (∀ msg, isUniqueViolation (some "23505") msg = true) ∧
      (∀ code msg, isUniqueViolation code msg = false →
        saveWeeklyAttempt true st (SaveResponse.errRes code msg) =
          { saving := false, saved := false, saveError := some msg }) ∧
      saveWeeklyAttempt true st SaveResponse.ok =
        { saving := false, saved := true, saveError := none } := by
  have hguard : ¬((true : Bool) = false ∨ st.saving = true ∨ st.saved = true) := by
    simp [h1, h2]
  refine ⟨?_, ?_, ?_, ?_⟩
  · intro code msg hu
    have heq : saveWeeklyAttempt true st (SaveResponse.errRes code msg) =
        if isUniqueViolation code msg = true then
          { saving := false, saved := true, saveError := none }
        else { saving := false, saved := st.saved, saveError := some msg } := by
      unfold saveWeeklyAttempt
      rw [if_neg hguard]
    rw [heq, if_pos hu]
  · intro msg
    simp [isUniqueViolation]
  · intro code msg hu
    have heq : saveWeeklyAttempt true st (SaveResponse.errRes code msg) =
        if isUniqueViolation code msg = true then
          { saving := false, saved := true, saveError := none }
        else { saving := false, saved := st.saved, saveError := some msg } := by
      unfold saveWeeklyAttempt
      rw [if_neg hguard]
    rw [heq, if_neg (by simp [hu]), h2]
  · have heq : saveWeeklyAttempt true st SaveResponse.ok =
        { saving := false, saved := true, saveError := none } := by
      unfold saveWeeklyAttempt
      rw [if_neg hguard]
    exact heq

theorem duplicate_submission_treated_saved_witness :
    (false : Bool) = false ∧
      saveWeeklyAttempt true { saving := false, saved := false, saveError := none }
          (SaveResponse.errRes (some "23505")
            "duplicate key value violates unique constraint one_per_day") =
        { saving := false, saved := true, saveError := none } :=
  ⟨rfl,
    (duplicate_submission_treated_saved
        { saving := false, saved := false, saveError := none } (by decide) (by decide)).1
      (some "23505") "duplicate key value violates unique constraint one_per_day"
      (by decide)⟩

/-! ### URL-parameter clamping (C10)

`Number(params.get(...))` yields NaN for a non-numeric parameter string, and
`Math.max`/`Math.min` return NaN whenever an argument is NaN.  JS numbers are
modelled as `Option ℚ` with `none` for NaN — every numeric value arising here
(integers, the clamp bounds) is exactly representable. -/

/-- `Math.max` over possibly-NaN values. -/
def jsMax (x y : Option ℚ) : Option ℚ :=
  match x, y with
  | some a, some b => some (max a b)
  | _, _ => none

/-- `Math.min` over possibly-NaN values. -/
def jsMin (x y : Option ℚ) : Option ℚ :=
  match x, y with
  | some a, some b => some (min a b)
  | _, _ => none

def jsAdd (x y : Option ℚ) : Option ℚ :=
  match x, y with
  | some a, some b => some (a + b)
  | _, _ => none

def jsMul (x y : Option ℚ) : Option ℚ :=
  match x, y with
  | some a, some b => some (a * b)
  | _, _ => none

/-- JS `>=`: false whenever either side is NaN. -/
def jsGe (x y : Option ℚ) : Bool :=
  match x, y with
  | some a, some b => decide (b ≤ a)
  | _, _ => false

/-- `n` (Quiz.tsx line 140): `Math.max(1, Number(params.get("n") ?? default))`;
the argument is the parsed parameter value (or the numeric default). -/
def nParam (x : Option ℚ) : Option ℚ :=
  jsMax (some 1) x

/-- `total` (Quiz.tsx line 141):
`Math.max(5, Math.min(120, Number(params.get("t") ?? default)))`. -/
def tParam (x : Option ℚ) : Option ℚ :=
  jsMax (some 5) (jsMin (some 120) x)

/-- C10 amended: for every URL-parameter value that parses to an actual
number (and for absent parameters, whose numeric defaults are used), the
question count is clamped to at least 1 and the per-question budget into
[5, 120] seconds; a non-numeric parameter value, however, yields NaN, which
defeats both clamps (see the counterexample). -/
theorem param_clamps (q : ℚ) :
    nParam (some q) = some (max 1 q) ∧ (1 : ℚ) ≤ max 1 q ∧
      tParam (some q) = some (max 5 (min 120 q)) ∧
      (5 : ℚ) ≤ max 5 (min 120 q) ∧ max 5 (min 120 q) ≤ 120 := by
  refine ⟨rfl, le_max_left _ _, rfl, le_max_left _ _, ?_⟩
  exact max_le (by norm_num) (min_le_left _ _)

/-- C10 counterexample: with a non-numeric parameter string, `Number(...)` is
NaN and the clamps produce NaN rather than a value ≥ 1 or in [5, 120]; with
that budget, the timer deadline comparison is false at every sampled instant
(shown here at a concrete one), so the timeout never fires. -/
theorem param_clamps_counterexample :
    nParam none = none ∧ (nParam none).isSome = false ∧
      tParam none = none ∧ (tParam none).isSome = false ∧
      jsGe (some 1000000000) (jsAdd (some 0) (jsMul (tParam none) (some 1000))) = false :=
  ⟨rfl, rfl, rfl, rfl, rfl⟩

end BioQ
